import Mathlib

/-!
Shallow embedding of the quote-resolution subsystem of the stock-portfolio
tracker, translated from `src/app/api/stock/[ticker]/route.ts`.

Strings are modelled as `List Char`; JavaScript numbers as `Option ℚ`
(`none` representing NaN / undefined, which JavaScript truthiness treats
alike: both are falsy); provider HTTP traffic as an `Env` record describing
what each upstream endpoint would answer during one resolution; the module
level `tickerCache` as an explicit function-valued map threaded through
the handler; wall-clock time as an explicit `now : Nat` (milliseconds).
Every provider fetch that actually fires is recorded in an ordered call
log, so call-count claims are statable.
-/

namespace StockApi

abbrev Str := List Char

/-! ## JavaScript string primitives used by the route -/

/-- Whitespace recognised by `String.prototype.trim` (ASCII subset). -/
def jsIsSpace (c : Char) : Bool :=
  c = ' ' || c = '\t' || c = '\n' || c = '\r'

/-- `String.prototype.toUpperCase`, modelled on its ASCII action via
`Char.toUpper` (ticker strings are ASCII). -/
def jsToUpper (s : Str) : Str := s.map Char.toUpper

/-- `String.prototype.trim`: drop leading and trailing whitespace. -/
def jsTrim (s : Str) : Str :=
  ((s.dropWhile jsIsSpace).reverse.dropWhile jsIsSpace).reverse

/-- `String.prototype.split(sep)`: `"".split(sep) = [""]`, separators are
not kept, empty fields are kept. -/
def jsSplit (sep : Char) : Str → List Str
  | [] => [[]]
  | c :: rest =>
    match jsSplit sep rest with
    | [] => [[]]
    | h :: t => if c = sep then [] :: h :: t else (c :: h) :: t

def isDigitCh (c : Char) : Bool := '0' ≤ c && c ≤ '9'

def digitsToNat (ds : Str) : Nat :=
  ds.foldl (fun a c => 10 * a + (c.toNat - 48)) 0

/-- JavaScript `parseFloat` on the decimal grammar the providers emit:
optional leading whitespace, optional sign, digits with an optional
fraction, parsed as the longest numeric prefix.  `none` models NaN
(no leading numeric prefix at all). -/
def jsParseFloat (s : Str) : Option ℚ :=
  let s1 := s.dropWhile jsIsSpace
  let signed : Int × Str :=
    match s1 with
    | '-' :: r => (-1, r)
    | '+' :: r => (1, r)
    | _ => (1, s1)
  let ip := signed.2.takeWhile isDigitCh
  let rest := signed.2.dropWhile isDigitCh
  match rest with
  | '.' :: r2 =>
    let fp := r2.takeWhile isDigitCh
    if ip.isEmpty && fp.isEmpty then none
    else some (Rat.divInt
      (signed.1 * ((digitsToNat ip * 10 ^ fp.length + digitsToNat fp : Nat) : Int))
      ((10 : Int) ^ fp.length))
  | _ =>
    if ip.isEmpty then none
    else some (Rat.divInt (signed.1 * (digitsToNat ip : Int)) 1)

/-- JavaScript truthiness of an optional string value
(undefined and `""` are falsy). -/
def strTruthy : Option Str → Bool
  | some s => !s.isEmpty
  | none => false

/-- JavaScript truthiness of an optional number (undefined, NaN and 0 are
falsy). -/
def numTruthy : Option ℚ → Bool
  | some q => decide (q ≠ 0)
  | none => false

/-- JavaScript `a || b` for an optional string `a` with default `b`. -/
def jsOrStr (o : Option Str) (d : Str) : Str :=
  match o with
  | some s => if s.isEmpty then d else s
  | none => d

/-! ## Ticker parsing and format validation (route.ts lines 327-416) -/

structure TickerInfo where
  exchange : Option Str
  symbol : Str
  fullTicker : Str
deriving DecidableEq, Repr

/-- `parseTicker` (route.ts 327-350): uppercase + trim, then, when the
input contains a `:`, destructure the first two `:`-separated fields as
exchange and symbol (each trimmed again); `fullTicker` is always the whole
uppercased-trimmed input.  The fallback arm is unreachable because a
string containing `:` always splits into at least two fields. -/
def parseTicker (input : Str) : TickerInfo :=
  let upperInput := jsTrim (jsToUpper input)
  if upperInput.contains ':' then
    match jsSplit ':' upperInput with
    | e :: s :: _ => ⟨some (jsTrim e), jsTrim s, upperInput⟩
    | _ => ⟨none, upperInput, upperInput⟩
  else ⟨none, upperInput, upperInput⟩

/-- Exchanges given the longer Indian symbol rule in `isValidTickerFormat`
(route.ts 357-363) and accepted by `validateIndianStock` (route.ts 180). -/
def indianExchanges : List Str :=
  ["NSE".data, "BSE".data, "MCX".data, "NCDEX".data, "ICEX".data]

def isIndianExchange (e : Option Str) : Bool :=
  e == some "NSE".data || e == some "BSE".data || e == some "MCX".data ||
  e == some "NCDEX".data || e == some "ICEX".data

/-- Symbol regex `^[A-Z]{1,n}$`. -/
def matchAZ (maxLen : Nat) (s : Str) : Bool :=
  decide (1 ≤ s.length) && decide (s.length ≤ maxLen) &&
  s.all (fun c => decide ('A' ≤ c) && decide (c ≤ 'Z'))

/-- Recognised-exchange whitelist of `isValidTickerFormat`
(route.ts 377-408). -/
def validExchanges : List Str :=
  ["NASDAQ".data, "NYSE".data, "AMEX".data,
   "LSE".data, "LON".data, "FRA".data, "AMS".data, "SWX".data, "BME".data,
   "BIT".data, "OSE".data, "XETRA".data, "EURONEXT".data,
   "TSE".data, "ASX".data, "TSX".data, "HKEX".data, "TYO".data,
   "BSE".data, "NSE".data, "MCX".data, "NCDEX".data, "ICEX".data,
   "SSE".data, "SZSE".data]

/-- `isValidTickerFormat` (route.ts 353-416).  Note the JavaScript
truthiness test `if (exchange)`: an empty exchange prefix (input like
`":AAPL"`) skips the whitelist check entirely. -/
def isValidTickerFormat (input : Str) : Bool :=
  (if isIndianExchange (parseTicker input).exchange then
     matchAZ 10 (parseTicker input).symbol
   else matchAZ 5 (parseTicker input).symbol)
  && (match (parseTicker input).exchange with
      | none => true
      | some e => if e.isEmpty then true else validExchanges.contains e)

/-- Exchange list accepted by the international adapter route
(`isInternationalApiSupported`, route.ts 15-35). -/
def internationalExchanges : List Str :=
  ["NASDAQ".data, "NYSE".data, "AMEX".data, "LSE".data, "LON".data,
   "FRA".data, "XETRA".data, "EURONEXT".data, "TYO".data, "TSE".data,
   "HKEX".data, "ASX".data, "TSX".data]

/-- `isInternationalApiSupported` (route.ts 15-35): a missing or empty
(falsy) exchange is treated as US/international. -/
def isInternationalApiSupported (exchange : Option Str) : Bool :=
  match exchange with
  | none => true
  | some e => if e.isEmpty then true else internationalExchanges.contains e

/-! ## Cache, provider environment and adapter results -/

/-- One `tickerCache` entry (route.ts 8-11):
`{ valid: boolean; price?: number; timestamp: number }`. -/
structure CacheEntry where
  valid : Bool
  price : Option ℚ
  timestamp : Nat
deriving DecidableEq

def Cache : Type := Str → Option CacheEntry

def cacheSet (c : Cache) (k : Str) (e : CacheEntry) : Cache :=
  fun k2 => if k2 = k then some e else c k2

def emptyCache : Cache := fun _ => none

/-- `CACHE_DURATION` (route.ts 12): five minutes in milliseconds. -/
def CACHE_DURATION : Nat := 5 * 60 * 1000

/-- Relevant parts of an Alpha Vantage JSON body: the (string-valued)
`"Global Quote"."05. price"` field if present, the change fields, and
whether an `"Error Message"` / `"Information"` member is present. -/
structure AVJson where
  price05 : Option Str := none
  change09 : Option Str := none
  changePct10 : Option Str := none
  errorMessage : Bool := false
  information : Bool := false
deriving DecidableEq

/-- The combined `data["Global Quote"] && data["Global Quote"]["05. price"]`
truthiness test: the price string when the quote member is usable. -/
def avQuoteStr (j : AVJson) : Option Str :=
  match j.price05 with
  | some s => if s.isEmpty then none else some s
  | none => none

/-- What each upstream endpoint would answer during one resolution.
`none` at the outer layer is a failed fetch (network error, timeout or a
non-2xx status — all of which throw inside the adapter); for
Yahoo/Polygon/NSE the inner `Option` is the optional-chained price field
of the JSON body. -/
structure Env where
  direct : Option AVJson := none
  avDemo : Option AVJson := none
  yahoo : Option (Option ℚ) := none
  polygon : Option (Option ℚ) := none
  avIndia : Option AVJson := none
  yahooIndia : Option (Option ℚ) := none
  nse : Option (Option Str) := none
deriving DecidableEq

/-- Identifies one outgoing provider fetch, for the call log. -/
inductive Provider
  | direct | avDemo | yahoo | polygon | avIndia | yahooIndia | nseApi
deriving DecidableEq, Repr

/-- A non-throwing adapter return value: always `valid: true` plus a price
and a source name. -/
structure ProvResult where
  price : Option ℚ
  source : Str
deriving DecidableEq

/-! ## International adapters (route.ts 86-173) -/

/-- `validateWithAlphaVantageDemo` (route.ts 87-112): succeeds iff the
body carries a truthy `"05. price"` string, whose `parseFloat` becomes the
price (no positivity or NaN check). -/
def validateWithAlphaVantageDemo (env : Env) : Except Unit ProvResult :=
  match env.avDemo with
  | none => .error ()
  | some j =>
    match avQuoteStr j with
    | some s => .ok ⟨jsParseFloat s, "Alpha Vantage Demo".data⟩
    | none => .error ()

/-- `validateWithYahooFinance` (route.ts 115-145): succeeds iff
`chart.result[0].meta.regularMarketPrice` is truthy (nonzero). -/
def validateWithYahooFinance (env : Env) : Except Unit ProvResult :=
  match env.yahoo with
  | some (some q) =>
    if q = 0 then .error () else .ok ⟨some q, "Yahoo Finance".data⟩
  | _ => .error ()

/-- `validateWithPolygonDemo` (route.ts 148-173): succeeds iff
`results.p` is truthy (nonzero). -/
def validateWithPolygonDemo (env : Env) : Except Unit ProvResult :=
  match env.polygon with
  | some (some q) =>
    if q = 0 then .error () else .ok ⟨some q, "Polygon Demo".data⟩
  | _ => .error ()

/-! ## Indian adapters (route.ts 214-325); each returns its outcome plus
the fetches it actually performed (the suffix check throws before any
network call for unsupported exchanges) -/

/-- `fetchFromAlphaVantageIndian` (route.ts 215-249). -/
def fetchFromAlphaVantageIndian (env : Env) (exchange : Str) :
    Except Unit ProvResult × List Provider :=
  if exchange = "NSE".data ∨ exchange = "BSE".data then
    (match env.avIndia with
     | none => .error ()
     | some j =>
       match avQuoteStr j with
       | some s => .ok ⟨jsParseFloat s, "Alpha Vantage India".data⟩
       | none => .error (),
     [.avIndia])
  else (.error (), [])

/-- `fetchFromYahooFinanceIndian` (route.ts 252-287). -/
def fetchFromYahooFinanceIndian (env : Env) (exchange : Str) :
    Except Unit ProvResult × List Provider :=
  if exchange = "NSE".data ∨ exchange = "BSE".data then
    (match env.yahooIndia with
     | some (some q) =>
       if q = 0 then .error () else .ok ⟨some q, "Yahoo Finance India".data⟩
     | _ => .error (),
     [.yahooIndia])
  else (.error (), [])

/-- `fetchFromNSEAPI` (route.ts 290-325): NSE only; succeeds iff
`priceInfo.lastPrice` is truthy, parsed with `parseFloat`. -/
def fetchFromNSEAPI (env : Env) (exchange : Str) :
    Except Unit ProvResult × List Provider :=
  if exchange = "NSE".data then
    (match env.nse with
     | some (some s) =>
       if s.isEmpty then .error () else .ok ⟨jsParseFloat s, "NSE API".data⟩
     | _ => .error (),
     [.nseApi])
  else (.error (), [])

/-! ## The two resolver loops (route.ts 38-84 and 176-212) -/

/-- Return value of `validateTickerDynamically` / `validateIndianStock`:
`{ valid: boolean; price?: number; source?: string }`. -/
structure DynResult where
  valid : Bool
  price : Option ℚ := none
  source : Option Str := none
deriving DecidableEq

/-- Continuation of the `validateIndianStock` loop after the first two
adapters have been passed over: try `fetchFromNSEAPI`, else cache and
return the aggregate failure (route.ts 191-211, third iteration and
fall-through). -/
def indianTail3 (env : Env) (cache : Cache) (now : Nat)
    (ticker : Str) (e : Str) : DynResult × Cache × List Provider :=
  match (fetchFromNSEAPI env e).1 with
  | .ok r =>
    if numTruthy r.price then
      (⟨true, r.price, some r.source⟩,
       cacheSet cache ticker ⟨true, r.price, now⟩,
       (fetchFromAlphaVantageIndian env e).2 ++
         (fetchFromYahooFinanceIndian env e).2 ++ (fetchFromNSEAPI env e).2)
    else
      (⟨false, none, none⟩, cacheSet cache ticker ⟨false, none, now⟩,
       (fetchFromAlphaVantageIndian env e).2 ++
         (fetchFromYahooFinanceIndian env e).2 ++ (fetchFromNSEAPI env e).2)
  | .error _ =>
    (⟨false, none, none⟩, cacheSet cache ticker ⟨false, none, now⟩,
     (fetchFromAlphaVantageIndian env e).2 ++
       (fetchFromYahooFinanceIndian env e).2 ++ (fetchFromNSEAPI env e).2)

/-- Continuation of the `validateIndianStock` loop after the first
adapter has been passed over: try `fetchFromYahooFinanceIndian`
(route.ts 191-207, second iteration). -/
def indianTail2 (env : Env) (cache : Cache) (now : Nat)
    (ticker : Str) (e : Str) : DynResult × Cache × List Provider :=
  match (fetchFromYahooFinanceIndian env e).1 with
  | .ok r =>
    if numTruthy r.price then
      (⟨true, r.price, some r.source⟩,
       cacheSet cache ticker ⟨true, r.price, now⟩,
       (fetchFromAlphaVantageIndian env e).2 ++
         (fetchFromYahooFinanceIndian env e).2)
    else indianTail3 env cache now ticker e
  | .error _ => indianTail3 env cache now ticker e

/-- `validateIndianStock` (route.ts 176-212).  Guard: a falsy exchange or
one outside the Indian list returns invalid without caching; then the
three Indian adapters run in fixed order, a success counting only when
`result.valid && result.price` (truthy, i.e. nonzero non-NaN price);
successes are cached under the bare symbol, exhaustion caches invalid. -/
def validateIndianStock (env : Env) (cache : Cache) (now : Nat)
    (ticker : Str) : Option Str → DynResult × Cache × List Provider
  | none => (⟨false, none, none⟩, cache, [])
  | some e =>
    if indianExchanges.contains e then
      match (fetchFromAlphaVantageIndian env e).1 with
      | .ok r =>
        if numTruthy r.price then
          (⟨true, r.price, some r.source⟩,
           cacheSet cache ticker ⟨true, r.price, now⟩,
           (fetchFromAlphaVantageIndian env e).2)
        else indianTail2 env cache now ticker e
      | .error _ => indianTail2 env cache now ticker e
    else (⟨false, none, none⟩, cache, [])

/-- The body of `validateTickerDynamically` after a cache miss
(route.ts 48-83): route Indian-looking exchanges to
`validateIndianStock`, otherwise run the three international adapters in
fixed order, returning and caching the first `.ok` result, caching
invalid on exhaustion. -/
def dynamicCore (env : Env) (cache : Cache) (now : Nat)
    (ticker : Str) (exchange : Option Str) :
    DynResult × Cache × List Provider :=
  if !(isInternationalApiSupported exchange) then
    validateIndianStock env cache now ticker exchange
  else
    match validateWithAlphaVantageDemo env with
    | .ok r =>
      (⟨true, r.price, some r.source⟩,
       cacheSet cache ticker ⟨true, r.price, now⟩, [.avDemo])
    | .error _ =>
      match validateWithYahooFinance env with
      | .ok r =>
        (⟨true, r.price, some r.source⟩,
         cacheSet cache ticker ⟨true, r.price, now⟩, [.avDemo, .yahoo])
      | .error _ =>
        match validateWithPolygonDemo env with
        | .ok r =>
          (⟨true, r.price, some r.source⟩,
           cacheSet cache ticker ⟨true, r.price, now⟩,
           [.avDemo, .yahoo, .polygon])
        | .error _ =>
          (⟨false, none, none⟩, cacheSet cache ticker ⟨false, none, now⟩,
           [.avDemo, .yahoo, .polygon])

/-- `validateTickerDynamically` (route.ts 38-84).  An unexpired cache hit
(keyed by the bare symbol passed in as `ticker`) short-circuits with
`source: "cache"`; otherwise `dynamicCore` runs. -/
def validateTickerDynamically (env : Env) (cache : Cache) (now : Nat)
    (ticker : Str) (exchange : Option Str) :
    DynResult × Cache × List Provider :=
  match cache ticker with
  | some c =>
    if now - c.timestamp < CACHE_DURATION then
      (⟨c.valid, c.price, some "cache".data⟩, cache, [])
    else dynamicCore env cache now ticker exchange
  | none => dynamicCore env cache now ticker exchange

/-! ## The route handler `GET` (route.ts 418-542) -/

structure Config where
  apiKey : Str
deriving DecidableEq

/-- The guard `ALPHA_VANTAGE_API_KEY && ALPHA_VANTAGE_API_KEY !== "demo"`
(route.ts 440). -/
def realKeyConfigured (cfg : Config) : Bool :=
  !cfg.apiKey.isEmpty && !(cfg.apiKey == "demo".data)

inductive FailKind
  | invalidFormat | notFound | rateLimited
deriving DecidableEq, Repr

/-- The success object the handler builds (route.ts 455-464, 498-505,
524-531); `timestamp` holds the instant rendered by
`new Date().toISOString()`; `change`/`changePercent` only exist on the
direct real-key path (outer `none` = key absent from the object literal,
`change = some none` = NaN, `changePercent = some none` = undefined). -/
structure StockData where
  ticker : Str
  symbol : Str
  exchange : Option Str
  price : Option ℚ
  change : Option (Option ℚ)
  changePercent : Option (Option Str)
  timestamp : Nat
  source : Str
deriving DecidableEq

inductive Resp
  | success (sd : StockData)
  | failure (status : Nat) (kind : FailKind)
deriving DecidableEq

/-- The shared fallback/demo tail of the handler (route.ts 484-506 and
508-532): run `validateTickerDynamically` on the parsed symbol and
exchange, then answer 200 with a stock object or 404, with the given
default source string. -/
def dynamicOutcome (env : Env) (cache : Cache) (now : Nat)
    (ti : TickerInfo) (defSource : Str) (pre : List Provider) :
    Resp × Cache × List Provider :=
  (if (validateTickerDynamically env cache now ti.symbol ti.exchange).1.valid
   then
     .success ⟨ti.fullTicker, ti.symbol, ti.exchange,
       (validateTickerDynamically env cache now ti.symbol ti.exchange).1.price,
       none, none, now,
       jsOrStr
         (validateTickerDynamically env cache now ti.symbol ti.exchange).1.source
         defSource⟩
   else .failure 404 .notFound,
   (validateTickerDynamically env cache now ti.symbol ti.exchange).2.1,
   pre ++ (validateTickerDynamically env cache now ti.symbol ti.exchange).2.2)

/-- `GET` (route.ts 418-542).  Format check first (400); with a real key
the direct Alpha Vantage call is tried, short-circuiting only on an
`"Error Message"` body (404) or an `"Information"` body (429), every
other direct failure falling through to dynamic validation; without a
real key dynamic validation runs immediately. -/
def GET (cfg : Config) (env : Env) (cache : Cache) (now : Nat) (raw : Str) :
    Resp × Cache × List Provider :=
  if !isValidTickerFormat raw then (.failure 400 .invalidFormat, cache, [])
  else if realKeyConfigured cfg then
    match env.direct with
    | some j =>
      match avQuoteStr j with
      | some s =>
        (.success ⟨(parseTicker raw).fullTicker, (parseTicker raw).symbol,
          (parseTicker raw).exchange, jsParseFloat s,
          some (match j.change09 with
                | some cs => jsParseFloat cs
                | none => none),
          some j.changePct10, now, "Alpha Vantage".data⟩,
         cache, [.direct])
      | none =>
        if j.errorMessage then (.failure 404 .notFound, cache, [.direct])
        else if j.information then
          (.failure 429 .rateLimited, cache, [.direct])
        else dynamicOutcome env cache now (parseTicker raw)
          "Fallback Validation".data [.direct]
    | none => dynamicOutcome env cache now (parseTicker raw)
        "Fallback Validation".data [.direct]
  else dynamicOutcome env cache now (parseTicker raw)
    "Dynamic Validation".data []

/-! ## JSON serialization of a success body (`NextResponse.json`):
`undefined`-valued keys are dropped, NaN serializes as `null` -/

inductive JVal
  | str (s : Str)
  | num (q : ℚ)
  | null
  | isoTime (t : Nat)
deriving DecidableEq

def numOrNull : Option ℚ → JVal
  | some q => JVal.num q
  | none => JVal.null

/-- Key/value list of the serialized success body, in object-literal
order. -/
def stockDataJson (sd : StockData) : List (Str × JVal) :=
  [("ticker".data, JVal.str sd.ticker), ("symbol".data, JVal.str sd.symbol)]
  ++ (match sd.exchange with
      | some e => [("exchange".data, JVal.str e)]
      | none => [])
  ++ [("price".data, numOrNull sd.price)]
  ++ (match sd.change with
      | some v => [("change".data, numOrNull v)]
      | none => [])
  ++ (match sd.changePercent with
      | some (some s) => [("changePercent".data, JVal.str s)]
      | _ => [])
  ++ [("timestamp".data, JVal.isoTime sd.timestamp),
      ("source".data, JVal.str sd.source)]

end StockApi

namespace StockApi

example : parseTicker "nse:reliance".data =
    ⟨some "NSE".data, "RELIANCE".data, "NSE:RELIANCE".data⟩ := by decide

example : parseTicker ":AAPL".data = ⟨some "".data, "AAPL".data, ":AAPL".data⟩ := by
  decide

example : isValidTickerFormat "NASDAQ:AAPL".data = true := by decide
example : isValidTickerFormat "XYZ123".data = false := by decide
example : isValidTickerFormat ":AAPL".data = true := by decide
example : jsParseFloat "150".data = some 150 := by decide
example : jsParseFloat "0".data = some 0 := by decide

/-! ## Concrete configurations and environments used by witnesses and
counterexamples -/

/-- Demo configuration: no real Alpha Vantage key. -/
def demoCfg : Config := ⟨"demo".data⟩

/-- A configuration with a real Alpha Vantage key. -/
def realCfg : Config := ⟨"REALKEY".data⟩

/-- Every provider unreachable. -/
def envAllFail : Env := {}

/-- Alpha Vantage demo endpoint answers with price string `"150"`. -/
def envAVDemo150 : Env := { avDemo := some { price05 := some "150".data } }

/-- Alpha Vantage demo endpoint answers with price string `"0"`. -/
def envAVDemoZero : Env := { avDemo := some { price05 := some "0".data } }

/-- Yahoo Finance India answers `regularMarketPrice = 100`; everything
else unreachable. -/
def envYahooIndia100 : Env := { yahooIndia := some (some 100) }

-- Scratch sanity checks of the handler traces.
example : (GET demoCfg envAVDemo150 emptyCache 0 "AAPL".data).1 =
    .success ⟨"AAPL".data, "AAPL".data, none, some 150, none, none, 0,
      "Alpha Vantage Demo".data⟩ := by decide

example : (GET demoCfg envAVDemo150 emptyCache 0 "AAPL".data).2.2 =
    [.avDemo] := by decide

example : (GET demoCfg envYahooIndia100 emptyCache 0 "NSE:TCS".data).1 =
    .success ⟨"NSE:TCS".data, "TCS".data, some "NSE".data, some 100, none,
      none, 0, "Yahoo Finance India".data⟩ := by decide

example : (GET demoCfg envYahooIndia100 emptyCache 0 "NSE:TCS".data).2.2 =
    [.avIndia, .yahooIndia] := by decide

example :
    (GET demoCfg envAllFail
      ((GET demoCfg envYahooIndia100 emptyCache 0 "NSE:TCS".data).2.1)
      60000 "BSE:TCS".data).1 =
    .success ⟨"BSE:TCS".data, "TCS".data, some "BSE".data, some 100, none,
      none, 60000, "cache".data⟩ := by decide

example : (GET demoCfg envAllFail emptyCache 0 "AAPL".data).1 =
    .failure 404 .notFound := by decide

example : (GET realCfg { direct := some { errorMessage := true } }
    emptyCache 0 "AAPL".data).1 = .failure 404 .notFound := by decide

example : (GET realCfg { direct := some { errorMessage := true } }
    emptyCache 0 "AAPL".data).2.2 = [.direct] := by decide

/-! ## Helper lemmas about the string primitives -/

theorem jsSplit_ne_nil (sep : Char) (s : Str) : jsSplit sep s ≠ [] := by
  cases s with
  | nil => simp [jsSplit]
  | cons c rest =>
    simp only [jsSplit]
    split
    · simp
    · split <;> simp

theorem jsSplit_of_not_contains (sep : Char) (s : Str)
    (h : s.contains sep = false) : jsSplit sep s = [s] := by
  induction s with
  | nil => rfl
  | cons c rest ih =>
    simp only [List.contains_cons, Bool.or_eq_false_iff, beq_eq_false_iff_ne,
      ne_eq] at h
    simp only [jsSplit, ih h.2]
    rw [if_neg (fun hc => h.1 hc.symm)]

theorem jsSplit_append_sep (sep : Char) (a b : Str)
    (ha : a.contains sep = false) :
    jsSplit sep (a ++ sep :: b) = a :: jsSplit sep b := by
  induction a with
  | nil =>
    simp only [List.nil_append, jsSplit]
    cases hb : jsSplit sep b with
    | nil => exact absurd hb (jsSplit_ne_nil sep b)
    | cons h t => simp
  | cons c rest ih =>
    simp only [List.contains_cons, Bool.or_eq_false_iff, beq_eq_false_iff_ne,
      ne_eq] at ha
    simp only [List.cons_append, jsSplit, List.append_eq, ih ha.2]
    rw [if_neg (fun hc => ha.1 hc.symm)]

theorem contains_append_sep (sep : Char) (a b : Str) :
    (a ++ sep :: b).contains sep = true := by
  have : sep ∈ a ++ sep :: b := List.mem_append_right _ (List.mem_cons_self _ _)
  exact List.elem_iff.mpr this

theorem mem_of_mem_jsTrim {c : Char} {s : Str} (h : c ∈ jsTrim s) : c ∈ s := by
  simp only [jsTrim, List.mem_reverse] at h
  have h2 := (List.dropWhile_sublist (l := (s.dropWhile jsIsSpace).reverse)
    jsIsSpace).mem h
  rw [List.mem_reverse] at h2
  exact (List.dropWhile_sublist (l := s) jsIsSpace).mem h2

theorem mem_of_mem_jsSplit {sep : Char} {s part : Str} {c : Char}
    (hp : part ∈ jsSplit sep s) (hc : c ∈ part) : c ∈ s := by
  induction s generalizing part with
  | nil =>
    simp only [jsSplit, List.mem_singleton] at hp
    subst hp
    exact absurd hc (List.not_mem_nil c)
  | cons c0 rest ih =>
    cases hs : jsSplit sep rest with
    | nil => exact absurd hs (jsSplit_ne_nil sep rest)
    | cons h t =>
      simp only [jsSplit, hs] at hp
      by_cases he : c0 = sep
      · rw [if_pos he] at hp
        rcases List.mem_cons.mp hp with hp | hp
        · subst hp
          exact absurd hc (List.not_mem_nil c)
        · refine List.mem_cons_of_mem _ (@ih part ?_ hc)
          rw [hs]
          exact hp
      · rw [if_neg he] at hp
        rcases List.mem_cons.mp hp with hp | hp
        · subst hp
          rcases List.mem_cons.mp hc with hc | hc
          · subst hc
            exact List.mem_cons_self _ _
          · refine List.mem_cons_of_mem _ (@ih h ?_ hc)
            rw [hs]
            exact List.mem_cons_self h t
        · refine List.mem_cons_of_mem _ (@ih part ?_ hc)
          rw [hs]
          exact List.mem_cons_of_mem h hp

theorem charOfNatAux_toNat (n : Nat) (h : n.isValidChar) :
    (Char.ofNatAux n h).toNat = n := by
  simp [Char.ofNatAux, Char.toNat, UInt32.toNat]

theorem charOfNat_toNat_valid (n : Nat) (h : n.isValidChar) :
    (Char.ofNat n).toNat = n := by
  simp only [Char.ofNat, dif_pos h]
  exact charOfNatAux_toNat n h

/-- The result of `Char.toUpper` is never a lowercase ASCII letter. -/
theorem toUpper_not_lowercase (c : Char) :
    (Char.toUpper c).toNat < 97 ∨ 122 < (Char.toUpper c).toNat := by
  simp only [Char.toUpper]
  split
  · next h =>
    rw [charOfNat_toNat_valid]
    · omega
    · left
      omega
  · next h =>
    rw [Decidable.not_and_iff_or_not] at h
    omega

/-- Every character of an uppercased string is outside the lowercase
ASCII range. -/
theorem mem_jsToUpper_not_lowercase {c : Char} {s : Str}
    (h : c ∈ jsToUpper s) : c.toNat < 97 ∨ 122 < c.toNat := by
  simp only [jsToUpper, List.mem_map] at h
  obtain ⟨c0, -, rfl⟩ := h
  exact toUpper_not_lowercase c0

/-- The symbol field is either the whole trimmed input or the trim of one
of its `:`-separated fields. -/
theorem parseTicker_symbol_cases (input : Str) :
    (parseTicker input).symbol = jsTrim (jsToUpper input) ∨
    ∃ part, part ∈ jsSplit ':' (jsTrim (jsToUpper input)) ∧
      (parseTicker input).symbol = jsTrim part := by
  by_cases hmem : ':' ∈ jsTrim (jsToUpper input)
  · cases hsplit : jsSplit ':' (jsTrim (jsToUpper input)) with
    | nil => exact absurd hsplit (jsSplit_ne_nil _ _)
    | cons e rest =>
      cases rest with
      | nil =>
        left
        simp [parseTicker, hmem, hsplit]
      | cons s tail =>
        right
        refine ⟨s, ?_, ?_⟩
        · exact List.mem_cons_of_mem _ (List.mem_cons_self _ _)
        · simp [parseTicker, hmem, hsplit]
  · left
    simp [parseTicker, hmem]

/-- The symbol produced by `parseTicker` contains no lowercase ASCII
letter. -/
theorem parseTicker_symbol_not_lowercase (input : Str) {c : Char}
    (h : c ∈ (parseTicker input).symbol) : c.toNat < 97 ∨ 122 < c.toNat := by
  have key : c ∈ jsToUpper input := by
    rcases parseTicker_symbol_cases input with hsym | ⟨part, hpart, hsym⟩
    · rw [hsym] at h
      exact mem_of_mem_jsTrim h
    · rw [hsym] at h
      exact mem_of_mem_jsTrim
        (mem_of_mem_jsSplit hpart (mem_of_mem_jsTrim h))
  exact mem_jsToUpper_not_lowercase key

/-! ## Claim C6 -/

/-- C6 counterexample: the claim says `parse` splits into exchange and
symbol ONLY when the input contains exactly one `:`, the symbol otherwise
being the whole input with no exchange.  The input `"A:B:C"` contains two
colons, yet the code splits it at the first colon into exchange `"A"` and
symbol `"B"` (and its `canonicalForm`/`fullTicker` `"A:B:C"` is not
`exchange:symbol` either), so the claim as stated is false. -/
theorem parseTicker_multiColon_refutes :
    parseTicker "A:B:C".data =
      ⟨some "A".data, "B".data, "A:B:C".data⟩
    ∧ ¬((parseTicker "A:B:C".data).exchange = none
        ∧ (parseTicker "A:B:C".data).symbol = "A:B:C".data) := by
  decide

/-- C6 (amended): `parse` uppercases and trims its input;
`canonicalForm` (`fullTicker`) is always exactly that trimmed and
uppercased input; the symbol never contains a lowercase ASCII letter;
when the input contains no `:` the exchange is absent and the symbol is
the whole trimmed/uppercased input; when it contains exactly one `:`
(written `a ++ ':' :: b` with `a`, `b` colon-free) the exchange is the
trim of the part before the colon and the symbol the trim of the part
after it, so `canonicalForm = exchange:symbol` exactly when those parts
carry no surrounding whitespace — and the symbol may be empty. -/
theorem parseTicker_characterization (s : Str) :
    (parseTicker s).fullTicker = jsTrim (jsToUpper s)
    ∧ (∀ c ∈ (parseTicker s).symbol, c.toNat < 97 ∨ 122 < c.toNat)
    ∧ (':' ∉ jsTrim (jsToUpper s) →
        parseTicker s =
          ⟨none, jsTrim (jsToUpper s), jsTrim (jsToUpper s)⟩)
    ∧ (∀ a b : Str, jsTrim (jsToUpper s) = a ++ ':' :: b →
        a.contains ':' = false → b.contains ':' = false →
        parseTicker s = ⟨some (jsTrim a), jsTrim b, a ++ ':' :: b⟩) := by
  refine ⟨?_, ?_, ?_, ?_⟩
  · unfold parseTicker
    dsimp only
    split
    · split <;> rfl
    · rfl
  · intro c hc
    exact parseTicker_symbol_not_lowercase s hc
  · intro hmem
    simp [parseTicker, hmem]
  · intro a b hu ha hb
    have hmem : ':' ∈ jsTrim (jsToUpper s) := by
      rw [hu]
      exact List.mem_append_right _ (List.mem_cons_self _ _)
    have hsplit2 : jsSplit ':' (a ++ ':' :: b) = [a, b] := by
      rw [jsSplit_append_sep ':' a b ha, jsSplit_of_not_contains ':' b hb]
    simp [parseTicker, hmem, hu, hsplit2]

/-- Witness for C6: the spec's own end-to-end example input. -/
theorem parseTicker_characterization_witness :
    parseTicker "nse:reliance".data =
      ⟨some "NSE".data, "RELIANCE".data, "NSE:RELIANCE".data⟩ := by
  have h := (parseTicker_characterization "nse:reliance".data).2.2.2
    "NSE".data "RELIANCE".data (by decide) (by decide) (by decide)
  rw [h]
  decide

/-! ## Claim C3 -/

/-- Modelled from the spec side of claim C3 (for comparison with the
code, not translated from the source): an input fails format validation
when its symbol does not match `[A-Z]{1,10}` under an Indian exchange
prefix or `[A-Z]{1,5}` otherwise, or when an exchange prefix is present
(the parse produced one) but lies outside the recognized whitelist. -/
def specFailsFormat (input : Str) : Bool :=
  (if isIndianExchange (parseTicker input).exchange then
     !matchAZ 10 (parseTicker input).symbol
   else !matchAZ 5 (parseTicker input).symbol)
  || (match (parseTicker input).exchange with
      | some e => !validExchanges.contains e
      | none => false)

/-- The amended spec-side predicate for claim C3: as `specFailsFormat`,
except that — matching the code's JavaScript truthiness test — an empty
exchange prefix does not undergo the whitelist test. -/
def specFailsFormatNonempty (input : Str) : Bool :=
  (if isIndianExchange (parseTicker input).exchange then
     !matchAZ 10 (parseTicker input).symbol
   else !matchAZ 5 (parseTicker input).symbol)
  || (match (parseTicker input).exchange with
      | some e => !e.isEmpty && !validExchanges.contains e
      | none => false)

theorem specFailsFormatNonempty_sound (input : Str)
    (h : specFailsFormatNonempty input = true) :
    isValidTickerFormat input = false := by
  unfold specFailsFormatNonempty at h
  unfold isValidTickerFormat
  rcases hex : (parseTicker input).exchange with _ | e <;> rw [hex] at h
  · have hIE : isIndianExchange none = false := by decide
    simp_all
  · cases hiE : isIndianExchange (some e) <;>
      cases hm10 : matchAZ 10 (parseTicker input).symbol <;>
      cases hm5 : matchAZ 5 (parseTicker input).symbol <;>
      cases hemp : e.isEmpty <;>
      cases hcont : validExchanges.contains e <;>
      simp_all

/-- C3 counterexample: `":AAPL"` parses to a present-but-empty exchange
prefix, which is not in the recognized whitelist, so by the claim the
resolver must answer `InvalidFormat` with zero provider calls; the code
instead skips the whitelist for the empty (falsy) prefix, accepts the
format, and proceeds to call a provider. -/
theorem emptyExchangePrefix_skips_whitelist :
    specFailsFormat ":AAPL".data = true
    ∧ (GET demoCfg envAVDemo150 emptyCache 0 ":AAPL".data).1 =
        .success ⟨":AAPL".data, "AAPL".data, some "".data, some 150, none,
          none, 0, "Alpha Vantage Demo".data⟩
    ∧ (GET demoCfg envAVDemo150 emptyCache 0 ":AAPL".data).2.2 =
        [.avDemo] := by
  decide

/-- C3 (amended): for every input whose symbol fails the per-class regex
or whose exchange prefix is present, NON-EMPTY and outside the
whitelist, `GET` answers the 400 invalid-format error at once, leaving
the cache untouched and calling no provider (the result does not depend
on the cache or the provider environment at all); an empty exchange
prefix, however, skips the whitelist test. -/
theorem invalidFormat_failFast (cfg : Config) (env : Env) (cache : Cache)
    (now : Nat) (raw : Str) (h : specFailsFormatNonempty raw = true) :
    GET cfg env cache now raw = (.failure 400 .invalidFormat, cache, []) := by
  have hv := specFailsFormatNonempty_sound raw h
  unfold GET
  rw [hv]
  rfl

/-- Witness for C3 at the spec's own example input `"XYZ123"`. -/
theorem invalidFormat_failFast_witness :
    specFailsFormatNonempty "XYZ123".data = true
    ∧ GET demoCfg envAllFail emptyCache 0 "XYZ123".data =
        (.failure 400 .invalidFormat, emptyCache, []) :=
  ⟨by decide,
   invalidFormat_failFast demoCfg envAllFail emptyCache 0 "XYZ123".data
     (by decide)⟩

/-! ## Claim C8 -/

/-- Key list of a serialized success body. -/
def jsonKeys (sd : StockData) : List Str := (stockDataJson sd).map Prod.fst

/-- Every success body produced by `dynamicOutcome` is stamped with the
current instant. -/
theorem dynamicOutcome_timestamp (env : Env) (cache : Cache) (now : Nat)
    (ti : TickerInfo) (d : Str) (pre : List Provider) (sd : StockData)
    (h : (dynamicOutcome env cache now ti d pre).1 = .success sd) :
    sd.timestamp = now := by
  unfold dynamicOutcome at h
  dsimp only at h
  split at h
  · simp only [Resp.success.injEq] at h
    rw [← h]
  · simp at h

/-- Every success the handler returns is stamped with the current
instant. -/
theorem GET_success_timestamp (cfg : Config) (env : Env) (cache : Cache)
    (now : Nat) (raw : Str) (sd : StockData)
    (h : (GET cfg env cache now raw).1 = .success sd) :
    sd.timestamp = now := by
  unfold GET at h
  split at h
  · simp at h
  · split at h
    · split at h
      · split at h
        · dsimp only at h
          simp only [Resp.success.injEq] at h
          rw [← h]
        · split at h
          · simp at h
          · split at h
            · simp at h
            · exact dynamicOutcome_timestamp _ _ _ _ _ _ _ h
      · exact dynamicOutcome_timestamp _ _ _ _ _ _ _ h
    · exact dynamicOutcome_timestamp _ _ _ _ _ _ _ h

/-- The fixed key inventory of every serialized success body. -/
theorem stockDataJson_facts (sd : StockData) :
    ("timestamp".data, JVal.isoTime sd.timestamp) ∈ stockDataJson sd
    ∧ ("price".data, numOrNull sd.price) ∈ stockDataJson sd
    ∧ ("source".data, JVal.str sd.source) ∈ stockDataJson sd
    ∧ "ticker".data ∈ jsonKeys sd
    ∧ "symbol".data ∈ jsonKeys sd
    ∧ "lastUpdated".data ∉ jsonKeys sd := by
  obtain ⟨t, sy, ex, p, ch, cp, ts, src⟩ := sd
  rcases ex with _ | e <;> rcases ch with _ | c <;>
    rcases cp with _ | cp2 <;> first
      | (rcases cp2 with _ | cps <;> simp [jsonKeys, stockDataJson])
      | simp [jsonKeys, stockDataJson]

/-- C8 counterexample body: what the handler returns for a plain demo
resolution of AAPL. -/
def c8sd : StockData :=
  ⟨"AAPL".data, "AAPL".data, none, some 150, none, none, 0,
   "Alpha Vantage Demo".data⟩

/-- C8 counterexample: a successful resolution serializes its timestamp
under a key named `timestamp`; no success body contains a field named
`lastUpdated`, so the claimed boundary shape is false. -/
theorem success_body_lacks_lastUpdated :
    (GET demoCfg envAVDemo150 emptyCache 0 "AAPL".data).1 = .success c8sd
    ∧ jsonKeys c8sd =
        ["ticker".data, "symbol".data, "price".data, "timestamp".data,
         "source".data]
    ∧ "lastUpdated".data ∉ jsonKeys c8sd := by
  refine ⟨by decide, by decide, by decide⟩

/-- C8 (amended): every success body carries the keys `ticker`, `symbol`,
`price`, `source` and an ISO-8601 instant stamped at response time — but
the instant's field is named `timestamp`, not `lastUpdated`, and no
`lastUpdated` key exists (`exchange` appears when the parse produced one,
and the real-key direct path adds `change`/`changePercent`). -/
theorem success_body_shape (cfg : Config) (env : Env) (cache : Cache)
    (now : Nat) (raw : Str) (sd : StockData)
    (h : (GET cfg env cache now raw).1 = .success sd) :
    sd.timestamp = now
    ∧ ("timestamp".data, JVal.isoTime now) ∈ stockDataJson sd
    ∧ ("price".data, numOrNull sd.price) ∈ stockDataJson sd
    ∧ ("source".data, JVal.str sd.source) ∈ stockDataJson sd
    ∧ "ticker".data ∈ jsonKeys sd
    ∧ "symbol".data ∈ jsonKeys sd
    ∧ "lastUpdated".data ∉ jsonKeys sd := by
  have ht := GET_success_timestamp cfg env cache now raw sd h
  have hf := stockDataJson_facts sd
  exact ⟨ht, ht ▸ hf.1, hf.2.1, hf.2.2.1, hf.2.2.2.1, hf.2.2.2.2.1,
    hf.2.2.2.2.2⟩

/-- Witness for C8 at a concrete demo resolution. -/
theorem success_body_shape_witness :
    c8sd.timestamp = 0
    ∧ ("timestamp".data, JVal.isoTime 0) ∈ stockDataJson c8sd
    ∧ ("price".data, numOrNull c8sd.price) ∈ stockDataJson c8sd
    ∧ ("source".data, JVal.str c8sd.source) ∈ stockDataJson c8sd
    ∧ "ticker".data ∈ jsonKeys c8sd
    ∧ "symbol".data ∈ jsonKeys c8sd
    ∧ "lastUpdated".data ∉ jsonKeys c8sd :=
  success_body_shape demoCfg envAVDemo150 emptyCache 0 "AAPL".data c8sd
    (by decide)

/-! ## Claim C1 -/

/-- Cache state left behind by a first successful demo resolution of
AAPL at time 0. -/
def c1cache : Cache := (GET demoCfg envAVDemo150 emptyCache 0 "AAPL".data).2.1

/-- C1 counterexample: after a successful `resolve("AAPL")` a second call
within the TTL does perform zero provider calls, but its outcome is NOT
identical to the first quote: the `source` field is rewritten to
`"cache"` (and the timestamp is freshly stamped), so the claim as stated
is false. -/
theorem cacheHit_not_identical_outcome :
    (GET demoCfg envAVDemo150 emptyCache 0 "AAPL".data).1 =
      .success ⟨"AAPL".data, "AAPL".data, none, some 150, none, none, 0,
        "Alpha Vantage Demo".data⟩
    ∧ (GET demoCfg envAVDemo150 c1cache 60000 "AAPL".data).1 =
      .success ⟨"AAPL".data, "AAPL".data, none, some 150, none, none, 60000,
        "cache".data⟩
    ∧ (GET demoCfg envAVDemo150 c1cache 60000 "AAPL".data).2.2 = []
    ∧ ("cache".data : Str) ≠ "Alpha Vantage Demo".data := by
  decide

/-- A demo-mode resolution with an unexpired cache entry under the
parsed symbol answers from the cache with no provider call and no cache
write. -/
theorem demo_cacheHit_aux (cfg : Config) (env : Env)
    (cache : Cache) (now : Nat) (raw : Str) (e : CacheEntry)
    (hkey : realKeyConfigured cfg = false)
    (hfmt : isValidTickerFormat raw = true)
    (hhit : cache (parseTicker raw).symbol = some e)
    (httl : now - e.timestamp < CACHE_DURATION) :
    GET cfg env cache now raw =
      ((if e.valid then
          Resp.success ⟨(parseTicker raw).fullTicker,
            (parseTicker raw).symbol, (parseTicker raw).exchange, e.price,
            none, none, now, "cache".data⟩
        else Resp.failure 404 .notFound), cache, []) := by
  unfold GET
  rw [hfmt, hkey]
  simp only [Bool.not_true, Bool.false_eq_true, if_false]
  unfold dynamicOutcome validateTickerDynamically
  rw [hhit]
  dsimp only
  rw [if_pos httl]
  have hJs : jsOrStr (some "cache".data) "Dynamic Validation".data =
      "cache".data := by decide
  dsimp only
  rw [hJs]
  rfl

/-- C1 (amended): in demo mode (no real key), whenever the cache holds an
unexpired entry under the PARSED BARE SYMBOL (not the canonical form),
`GET` answers from that entry without any provider call and without
touching the cache: a valid entry yields a success carrying the cached
price verbatim but with source `"cache"` and a fresh timestamp, and a
cached failure yields the 404 outcome — so cached failures short-circuit
the providers too. -/
theorem cacheHit_shortCircuit_demo (cfg : Config) (env : Env)
    (cache : Cache) (now : Nat) (raw : Str) (e : CacheEntry)
    (hkey : realKeyConfigured cfg = false)
    (hfmt : isValidTickerFormat raw = true)
    (hhit : cache (parseTicker raw).symbol = some e)
    (httl : now - e.timestamp < CACHE_DURATION) :
    GET cfg env cache now raw =
      ((if e.valid then
          Resp.success ⟨(parseTicker raw).fullTicker,
            (parseTicker raw).symbol, (parseTicker raw).exchange, e.price,
            none, none, now, "cache".data⟩
        else Resp.failure 404 .notFound), cache, []) :=
  demo_cacheHit_aux cfg env cache now raw e hkey hfmt hhit httl

/-- An already-populated cache used by the C1 witness. -/
def w1cache : Cache := cacheSet emptyCache "AAPL".data ⟨true, some 150, 0⟩

/-- Witness for C1: a pre-populated valid entry answers within the TTL
with zero provider calls. -/
theorem cacheHit_shortCircuit_demo_witness :
    (GET demoCfg envAllFail w1cache 1000 "AAPL".data).1 =
      .success ⟨"AAPL".data, "AAPL".data, none, some 150, none, none, 1000,
        "cache".data⟩
    ∧ (GET demoCfg envAllFail w1cache 1000 "AAPL".data).2.2 = [] := by
  have h := cacheHit_shortCircuit_demo demoCfg envAllFail w1cache 1000
    "AAPL".data ⟨true, some 150, 0⟩ (by decide) (by decide) (by decide)
    (by decide)
  rw [h]
  exact ⟨by decide, rfl⟩

/-! ## Claim C2 -/

/-- C2: with a real Alpha Vantage key configured and a well-formed
ticker, the direct Alpha Vantage attempt short-circuits in exactly two
cases — an `"Error Message"` body yields 404 `NotFound` and an
`"Information"` body yields 429 `RateLimited`, both leaving the cache
untouched and invoking no fallback adapter — and every other failure of
the direct attempt (failed fetch, or a body with neither a usable quote
nor either marker) falls through to the full dynamic fallback
resolution. -/
theorem directKey_shortCircuit (cfg : Config) (env : Env) (cache : Cache)
    (now : Nat) (raw : Str)
    (hkey : realKeyConfigured cfg = true)
    (hfmt : isValidTickerFormat raw = true) :
    (∀ j, env.direct = some j → avQuoteStr j = none → j.errorMessage = true →
      GET cfg env cache now raw = (.failure 404 .notFound, cache, [.direct]))
    ∧ (∀ j, env.direct = some j → avQuoteStr j = none →
        j.errorMessage = false → j.information = true →
        GET cfg env cache now raw =
          (.failure 429 .rateLimited, cache, [.direct]))
    ∧ (env.direct = none →
        GET cfg env cache now raw =
          dynamicOutcome env cache now (parseTicker raw)
            "Fallback Validation".data [.direct])
    ∧ (∀ j, env.direct = some j → avQuoteStr j = none →
        j.errorMessage = false → j.information = false →
        GET cfg env cache now raw =
          dynamicOutcome env cache now (parseTicker raw)
            "Fallback Validation".data [.direct]) := by
  refine ⟨?_, ?_, ?_, ?_⟩
  · intro j hj hq hem
    simp [GET, hfmt, hkey, hj, hq, hem]
  · intro j hj hq hem him
    simp [GET, hfmt, hkey, hj, hq, hem, him]
  · intro hj
    simp [GET, hfmt, hkey, hj]
  · intro j hj hq hem him
    simp [GET, hfmt, hkey, hj, hq, hem, him]

/-- Witness for C2: an upstream symbol-unknown body short-circuits to 404
without any fallback call. -/
theorem directKey_shortCircuit_witness :
    GET realCfg { direct := some { errorMessage := true } } emptyCache 0
      "AAPL".data = (.failure 404 .notFound, emptyCache, [.direct]) :=
  (directKey_shortCircuit realCfg { direct := some { errorMessage := true } }
    emptyCache 0 "AAPL".data (by decide) (by decide)).1
    { errorMessage := true } rfl (by decide) rfl

/-! ## Claim C4 -/

/-- When the first Indian adapter fails and the second returns a truthy
price, the Indian loop returns and caches the second quote, never
reaching the third adapter. -/
theorem indian_second_adapter (env : Env) (cache : Cache) (now : Nat)
    (t e : Str) (r : ProvResult)
    (hmem : indianExchanges.contains e = true)
    (h1 : (fetchFromAlphaVantageIndian env e).1 = .error ())
    (h2 : (fetchFromYahooFinanceIndian env e).1 = .ok r)
    (h3 : numTruthy r.price = true) :
    validateIndianStock env cache now t (some e) =
      (⟨true, r.price, some r.source⟩,
       cacheSet cache t ⟨true, r.price, now⟩,
       (fetchFromAlphaVantageIndian env e).2 ++
         (fetchFromYahooFinanceIndian env e).2) := by
  simp only [validateIndianStock]
  rw [hmem, if_pos rfl, h1]
  unfold indianTail2
  rw [h2]
  dsimp only
  rw [h3]
  rfl

/-- C4: within one resolution the chosen adapter list runs strictly in
its declared order and the first success stops iteration: on the
international route a first-adapter success is cached and returned with
only one fetch made, and when the first adapter fails and the second
succeeds the second quote is cached and returned with the third adapter
never invoked; the same holds on the Indian route (shown for NSE). -/
theorem adapter_fallback_order (env : Env) (cache : Cache) (now : Nat)
    (t : Str) (exch : Option Str) :
    (∀ r, isInternationalApiSupported exch = true → cache t = none →
      validateWithAlphaVantageDemo env = .ok r →
      validateTickerDynamically env cache now t exch =
        (⟨true, r.price, some r.source⟩,
         cacheSet cache t ⟨true, r.price, now⟩, [.avDemo]))
    ∧ (∀ r, isInternationalApiSupported exch = true → cache t = none →
      validateWithAlphaVantageDemo env = .error () →
      validateWithYahooFinance env = .ok r →
      validateTickerDynamically env cache now t exch =
        (⟨true, r.price, some r.source⟩,
         cacheSet cache t ⟨true, r.price, now⟩, [.avDemo, .yahoo]))
    ∧ (∀ r, cache t = none →
      (fetchFromAlphaVantageIndian env "NSE".data).1 = .error () →
      (fetchFromYahooFinanceIndian env "NSE".data).1 = .ok r →
      numTruthy r.price = true →
      validateTickerDynamically env cache now t (some "NSE".data) =
        (⟨true, r.price, some r.source⟩,
         cacheSet cache t ⟨true, r.price, now⟩,
         [.avIndia, .yahooIndia])) := by
  refine ⟨?_, ?_, ?_⟩
  · intro r hintl hmiss h1
    unfold validateTickerDynamically
    rw [hmiss]
    dsimp only
    unfold dynamicCore
    rw [hintl, h1]
    rfl
  · intro r hintl hmiss h1 h2
    unfold validateTickerDynamically
    rw [hmiss]
    dsimp only
    unfold dynamicCore
    rw [hintl, h1, h2]
    rfl
  · intro r hmiss h1 h2 h3
    unfold validateTickerDynamically
    rw [hmiss]
    dsimp only
    unfold dynamicCore
    have hNSE : isInternationalApiSupported (some "NSE".data) = false := by
      decide
    rw [hNSE]
    have h := indian_second_adapter env cache now t "NSE".data r
      (by decide) h1 h2 h3
    rw [h]
    have hl1 : (fetchFromAlphaVantageIndian env "NSE".data).2 =
        [Provider.avIndia] := by
      unfold fetchFromAlphaVantageIndian
      rw [if_pos (Or.inl rfl)]
    have hl2 : (fetchFromYahooFinanceIndian env "NSE".data).2 =
        [Provider.yahooIndia] := by
      unfold fetchFromYahooFinanceIndian
      rw [if_pos (Or.inl rfl)]
    rw [hl1, hl2]
    rfl

/-- Witness for C4: Alpha Vantage demo unreachable, Yahoo succeeds with
price 42 — Yahoo's quote is returned and cached, Polygon never called. -/
theorem adapter_fallback_order_witness :
    validateTickerDynamically { yahoo := some (some 42) } emptyCache 0
      "AAPL".data none =
      (⟨true, some 42, some "Yahoo Finance".data⟩,
       cacheSet emptyCache "AAPL".data ⟨true, some 42, 0⟩,
       [.avDemo, .yahoo]) := by
  have h := (adapter_fallback_order { yahoo := some (some 42) } emptyCache 0
    "AAPL".data none).2.1 ⟨some 42, "Yahoo Finance".data⟩ (by decide) rfl
    rfl rfl
  exact h

/-! ## Claim C5 -/

/-- C5 counterexample: when every international adapter fails, the
failure is surfaced as a 404 not-found response, not as a server-error
(5xx) classification as the claim states. -/
theorem allProvidersFailed_status404 :
    (GET demoCfg envAllFail emptyCache 0 "AAPL".data).1 =
      .failure 404 .notFound
    ∧ (GET demoCfg envAllFail emptyCache 0 "AAPL".data).2.2 =
      [.avDemo, .yahoo, .polygon]
    ∧ (404 : Nat) ≠ 500 := by
  decide

/-- C5 (amended): if every adapter of the international route fails, the
resolution returns the not-found (404) failure — not a server-error
status — and caches the invalid outcome under the parsed symbol, so that
any repeat call within the 5-minute TTL returns the same 404 with zero
provider calls, whatever the providers would now answer. -/
theorem allProvidersFailed_cached_404 (cfg : Config) (env : Env)
    (cache : Cache) (now : Nat) (raw : Str)
    (hkey : realKeyConfigured cfg = false)
    (hfmt : isValidTickerFormat raw = true)
    (hintl : isInternationalApiSupported (parseTicker raw).exchange = true)
    (hmiss : cache (parseTicker raw).symbol = none)
    (h1 : validateWithAlphaVantageDemo env = .error ())
    (h2 : validateWithYahooFinance env = .error ())
    (h3 : validateWithPolygonDemo env = .error ()) :
    GET cfg env cache now raw =
      (.failure 404 .notFound,
       cacheSet cache (parseTicker raw).symbol ⟨false, none, now⟩,
       [.avDemo, .yahoo, .polygon])
    ∧ ∀ env2 now2, now2 - now < CACHE_DURATION →
        GET cfg env2
          (cacheSet cache (parseTicker raw).symbol ⟨false, none, now⟩)
          now2 raw =
          (.failure 404 .notFound,
           cacheSet cache (parseTicker raw).symbol ⟨false, none, now⟩,
           []) := by
  constructor
  · unfold GET
    rw [hfmt, hkey]
    simp only [Bool.not_true, Bool.false_eq_true, if_false]
    unfold dynamicOutcome validateTickerDynamically
    rw [hmiss]
    dsimp only
    unfold dynamicCore
    rw [hintl, h1, h2, h3]
    rfl
  · intro env2 now2 httl2
    have h := demo_cacheHit_aux cfg env2
      (cacheSet cache (parseTicker raw).symbol ⟨false, none, now⟩) now2 raw
      ⟨false, none, now⟩ hkey hfmt (by simp [cacheSet]) httl2
    rw [h]
    rfl

/-- Witness for C5: all providers down at time 0; a repeat call at time
1000 — against an environment in which Alpha Vantage would now succeed —
still answers the cached 404 with zero calls. -/
theorem allProvidersFailed_cached_404_witness :
    GET demoCfg envAllFail emptyCache 0 "AAPL".data =
      (.failure 404 .notFound,
       cacheSet emptyCache "AAPL".data ⟨false, none, 0⟩,
       [.avDemo, .yahoo, .polygon])
    ∧ GET demoCfg envAVDemo150
        (cacheSet emptyCache "AAPL".data ⟨false, none, 0⟩) 1000
        "AAPL".data =
      (.failure 404 .notFound,
       cacheSet emptyCache "AAPL".data ⟨false, none, 0⟩, []) := by
  have h := allProvidersFailed_cached_404 demoCfg envAllFail emptyCache 0
    "AAPL".data (by decide) (by decide) (by decide) rfl rfl rfl rfl
  exact ⟨h.1, h.2 envAVDemo150 1000 (by decide)⟩

/-! ## Claims C9 and C10: helper lemmas on the Indian loop -/

theorem indianTail3_nonzero (env : Env) (cache : Cache) (now : Nat)
    (t e : Str) :
    ((indianTail3 env cache now t e).1).valid = true →
    numTruthy ((indianTail3 env cache now t e).1).price = true := by
  unfold indianTail3
  cases hns : (fetchFromNSEAPI env e).1 with
  | error a => simp
  | ok r =>
    by_cases hc : numTruthy r.price = true
    · simp [hc]
    · simp [hc]

theorem indianTail2_nonzero (env : Env) (cache : Cache) (now : Nat)
    (t e : Str) :
    ((indianTail2 env cache now t e).1).valid = true →
    numTruthy ((indianTail2 env cache now t e).1).price = true := by
  unfold indianTail2
  cases hy : (fetchFromYahooFinanceIndian env e).1 with
  | error a => exact indianTail3_nonzero env cache now t e
  | ok r =>
    by_cases hc : numTruthy r.price = true
    · simp [hc]
    · have hc' : numTruthy r.price = false := by
        revert hc
        cases numTruthy r.price <;> simp
      simp only [hc', Bool.false_eq_true, if_false]
      exact indianTail3_nonzero env cache now t e

theorem validateIndianStock_nonzero (env : Env) (cache : Cache) (now : Nat)
    (t : Str) (exch : Option Str) :
    ((validateIndianStock env cache now t exch).1).valid = true →
    numTruthy ((validateIndianStock env cache now t exch).1).price =
      true := by
  rcases exch with _ | e
  · simp [validateIndianStock]
  · simp only [validateIndianStock]
    by_cases hmem : indianExchanges.contains e = true
    · rw [if_pos hmem]
      cases hav : (fetchFromAlphaVantageIndian env e).1 with
      | error a => exact indianTail2_nonzero env cache now t e
      | ok r =>
        by_cases hc : numTruthy r.price = true
        · simp [hc]
        · have hc' : numTruthy r.price = false := by
            revert hc
            cases numTruthy r.price <;> simp
          simp only [hc', Bool.false_eq_true, if_false]
          exact indianTail2_nonzero env cache now t e
    · rw [if_neg hmem]
      simp

theorem avDemo_provenance (env : Env) (r : ProvResult)
    (h : validateWithAlphaVantageDemo env = .ok r) :
    ∃ j s, env.avDemo = some j ∧ avQuoteStr j = some s ∧
      r.price = jsParseFloat s ∧ r.source = "Alpha Vantage Demo".data := by
  unfold validateWithAlphaVantageDemo at h
  cases hd : env.avDemo with
  | none =>
    rw [hd] at h
    simp at h
  | some j =>
    rw [hd] at h
    have h3 : (match avQuoteStr j with
        | some s =>
          Except.ok
            (⟨jsParseFloat s, "Alpha Vantage Demo".data⟩ : ProvResult)
        | none => Except.error ()) = Except.ok r := h
    cases hq : avQuoteStr j with
    | none =>
      rw [hq] at h3
      simp at h3
    | some s =>
      rw [hq] at h3
      have h' : Except.ok
          (⟨jsParseFloat s, "Alpha Vantage Demo".data⟩ : ProvResult) =
          Except.ok r := h3
      have h2 := Except.ok.inj h'
      exact ⟨j, s, rfl, hq, by rw [← h2], by rw [← h2]⟩

theorem yahoo_provenance (env : Env) (r : ProvResult)
    (h : validateWithYahooFinance env = .ok r) :
    ∃ q, q ≠ 0 ∧ env.yahoo = some (some q) ∧ r.price = some q := by
  unfold validateWithYahooFinance at h
  rcases hy : env.yahoo with _ | ⟨_ | q⟩ <;> rw [hy] at h
  · simp at h
  · simp at h
  · by_cases hz : q = 0
    · have h' :
          (if q = 0 then Except.error ()
           else Except.ok
             (⟨some q, "Yahoo Finance".data⟩ : ProvResult)) =
          Except.ok r := h
      rw [if_pos hz] at h'
      simp at h'
    · have h' :
          (if q = 0 then Except.error ()
           else Except.ok
             (⟨some q, "Yahoo Finance".data⟩ : ProvResult)) =
          Except.ok r := h
      rw [if_neg hz] at h'
      have h2 := Except.ok.inj h'
      exact ⟨q, hz, rfl, by rw [← h2]⟩

theorem polygon_provenance (env : Env) (r : ProvResult)
    (h : validateWithPolygonDemo env = .ok r) :
    ∃ q, q ≠ 0 ∧ env.polygon = some (some q) ∧ r.price = some q := by
  unfold validateWithPolygonDemo at h
  rcases hy : env.polygon with _ | ⟨_ | q⟩ <;> rw [hy] at h
  · simp at h
  · simp at h
  · by_cases hz : q = 0
    · have h' :
          (if q = 0 then Except.error ()
           else Except.ok
             (⟨some q, "Polygon Demo".data⟩ : ProvResult)) =
          Except.ok r := h
      rw [if_pos hz] at h'
      simp at h'
    · have h' :
          (if q = 0 then Except.error ()
           else Except.ok
             (⟨some q, "Polygon Demo".data⟩ : ProvResult)) =
          Except.ok r := h
      rw [if_neg hz] at h'
      have h2 := Except.ok.inj h'
      exact ⟨q, hz, rfl, by rw [← h2]⟩

/-! ## Claim C9 -/

/-- C9 counterexample: the Alpha Vantage demo adapter happily builds a
quote from the truthy price string `"0"`, and the handler returns it as
a success with price 0 — the claimed invariant `price > 0` is false. -/
theorem quote_price_zero_possible :
    (GET demoCfg envAVDemoZero emptyCache 0 "AAPL".data).1 =
      .success ⟨"AAPL".data, "AAPL".data, none, some 0, none, none, 0,
        "Alpha Vantage Demo".data⟩
    ∧ ¬((0 : ℚ) > 0) := by
  decide

/-- C9 (amended): a quote is only ever constructed from a provider
response that supplied a TRUTHY price value, but the parsed number is
never checked for positivity: the Yahoo and Polygon adapters yield the
nonzero (possibly negative) number the provider sent, the Alpha Vantage
adapters yield whatever `parseFloat` makes of any non-empty price string
(possibly 0, negative, or NaN), and on the Indian route a returned
success always carries a truthy — nonzero, not necessarily positive —
price. -/
theorem quote_price_provenance :
    (∀ env r, validateWithAlphaVantageDemo env = .ok r →
      ∃ j s, env.avDemo = some j ∧ avQuoteStr j = some s ∧
        r.price = jsParseFloat s ∧ r.source = "Alpha Vantage Demo".data)
    ∧ (∀ env r, validateWithYahooFinance env = .ok r →
      ∃ q, q ≠ 0 ∧ env.yahoo = some (some q) ∧ r.price = some q)
    ∧ (∀ env r, validateWithPolygonDemo env = .ok r →
      ∃ q, q ≠ 0 ∧ env.polygon = some (some q) ∧ r.price = some q)
    ∧ (∀ env cache now t exch,
      ((validateIndianStock env cache now t exch).1).valid = true →
      numTruthy ((validateIndianStock env cache now t exch).1).price =
        true) :=
  ⟨avDemo_provenance, yahoo_provenance, polygon_provenance,
   validateIndianStock_nonzero⟩

/-- Witness for C9: the zero-price Alpha Vantage body yields a quote
whose price is the parse of the supplied string `"0"`. -/
theorem quote_price_provenance_witness :
    ∃ j s, envAVDemoZero.avDemo = some j ∧ avQuoteStr j = some s ∧
      (⟨jsParseFloat "0".data, "Alpha Vantage Demo".data⟩ :
        ProvResult).price = jsParseFloat s ∧
      (⟨jsParseFloat "0".data, "Alpha Vantage Demo".data⟩ :
        ProvResult).source = "Alpha Vantage Demo".data :=
  quote_price_provenance.1 envAVDemoZero
    ⟨jsParseFloat "0".data, "Alpha Vantage Demo".data⟩ rfl

/-! ## Claim C10 -/

/-- C10: on the Indian route an adapter result that is valid but carries
a zero (or missing/NaN) price is treated as a failure — it is neither
cached nor returned and the loop continues with the next adapter — and
every success returned by the Indian loop carries a truthy, hence
nonzero, price. -/
theorem indian_route_nonzero_price (env : Env) (cache : Cache) (now : Nat)
    (t : Str) :
    (∀ exch, ((validateIndianStock env cache now t exch).1).valid = true →
      numTruthy ((validateIndianStock env cache now t exch).1).price =
        true)
    ∧ (∀ r r2, (fetchFromAlphaVantageIndian env "NSE".data).1 = .ok r →
      numTruthy r.price = false →
      (fetchFromYahooFinanceIndian env "NSE".data).1 = .ok r2 →
      numTruthy r2.price = true →
      validateIndianStock env cache now t (some "NSE".data) =
        (⟨true, r2.price, some r2.source⟩,
         cacheSet cache t ⟨true, r2.price, now⟩,
         [.avIndia, .yahooIndia])) := by
  constructor
  · intro exch
    exact validateIndianStock_nonzero env cache now t exch
  · intro r r2 h1 hz h2 ht
    simp only [validateIndianStock]
    have hmem : indianExchanges.contains "NSE".data = true := by decide
    rw [hmem, if_pos rfl, h1]
    dsimp only
    rw [hz]
    simp only [Bool.false_eq_true, if_false]
    unfold indianTail2
    rw [h2]
    dsimp only
    rw [ht]
    have hl1 : (fetchFromAlphaVantageIndian env "NSE".data).2 =
        [Provider.avIndia] := by
      unfold fetchFromAlphaVantageIndian
      rw [if_pos (Or.inl rfl)]
    have hl2 : (fetchFromYahooFinanceIndian env "NSE".data).2 =
        [Provider.yahooIndia] := by
      unfold fetchFromYahooFinanceIndian
      rw [if_pos (Or.inl rfl)]
    rw [hl1, hl2]
    rfl

/-- Environment for the C10 witness: Alpha Vantage India answers the
valid-but-zero price string `"0"`, Yahoo Finance India answers 55. -/
def env10 : Env :=
  { avIndia := some { price05 := some "0".data },
    yahooIndia := some (some 55) }

/-- Witness for C10: the zero-price first adapter is skipped and not
cached; the second adapter answers with the nonzero price 55. -/
theorem indian_route_nonzero_price_witness :
    validateIndianStock env10 emptyCache 0 "TCS".data
      (some "NSE".data) =
      (⟨true, some 55, some "Yahoo Finance India".data⟩,
       cacheSet emptyCache "TCS".data ⟨true, some 55, 0⟩,
       [.avIndia, .yahooIndia]) := by
  have h := (indian_route_nonzero_price env10 emptyCache 0 "TCS".data).2
    ⟨jsParseFloat "0".data, "Alpha Vantage India".data⟩
    ⟨some 55, "Yahoo Finance India".data⟩ rfl (by decide) rfl (by decide)
  exact h

/-! ## Claim C7: cache locality lemmas -/

theorem indianTail3_writeLocal (env : Env) (cache : Cache) (now : Nat)
    (t e k : Str) (hk : k ≠ t) :
    ((indianTail3 env cache now t e).2.1) k = cache k := by
  unfold indianTail3
  cases (fetchFromNSEAPI env e).1 with
  | ok r => by_cases hc : numTruthy r.price = true <;> simp [hc, cacheSet, hk]
  | error a => simp [cacheSet, hk]

theorem indianTail2_writeLocal (env : Env) (cache : Cache) (now : Nat)
    (t e k : Str) (hk : k ≠ t) :
    ((indianTail2 env cache now t e).2.1) k = cache k := by
  unfold indianTail2
  cases (fetchFromYahooFinanceIndian env e).1 with
  | ok r =>
    by_cases hc : numTruthy r.price = true
    · simp [hc, cacheSet, hk]
    · have hc' : numTruthy r.price = false := by
        revert hc
        cases numTruthy r.price <;> simp
      simp only [hc', Bool.false_eq_true, if_false]
      exact indianTail3_writeLocal env cache now t e k hk
  | error a => exact indianTail3_writeLocal env cache now t e k hk

theorem validateIndianStock_writeLocal (env : Env) (cache : Cache)
    (now : Nat) (t : Str) (exch : Option Str) (k : Str) (hk : k ≠ t) :
    ((validateIndianStock env cache now t exch).2.1) k = cache k := by
  rcases exch with _ | e
  · rfl
  · simp only [validateIndianStock]
    by_cases hmem : indianExchanges.contains e = true
    · rw [if_pos hmem]
      cases (fetchFromAlphaVantageIndian env e).1 with
      | ok r =>
        by_cases hc : numTruthy r.price = true
        · simp [hc, cacheSet, hk]
        · have hc' : numTruthy r.price = false := by
            revert hc
            cases numTruthy r.price <;> simp
          simp only [hc', Bool.false_eq_true, if_false]
          exact indianTail2_writeLocal env cache now t e k hk
      | error a => exact indianTail2_writeLocal env cache now t e k hk
    · rw [if_neg hmem]

theorem dynamicCore_writeLocal (env : Env) (cache : Cache) (now : Nat)
    (t : Str) (exch : Option Str) (k : Str) (hk : k ≠ t) :
    ((dynamicCore env cache now t exch).2.1) k = cache k := by
  unfold dynamicCore
  cases hI : isInternationalApiSupported exch
  · simp only [Bool.not_false, if_pos]
    exact validateIndianStock_writeLocal env cache now t exch k hk
  · simp only [Bool.not_true, Bool.false_eq_true, if_false]
    cases validateWithAlphaVantageDemo env with
    | ok r => simp [cacheSet, hk]
    | error a =>
      cases validateWithYahooFinance env with
      | ok r => simp [cacheSet, hk]
      | error a2 =>
        cases validateWithPolygonDemo env with
        | ok r => simp [cacheSet, hk]
        | error a3 => simp [cacheSet, hk]

theorem vtd_cacheMissEq (env : Env) (cache : Cache) (now : Nat) (t : Str)
    (exch : Option Str) (h : cache t = none) :
    validateTickerDynamically env cache now t exch =
      dynamicCore env cache now t exch := by
  unfold validateTickerDynamically
  rw [h]

theorem vtd_cacheHitEq (env : Env) (cache : Cache) (now : Nat) (t : Str)
    (exch : Option Str) (c : CacheEntry) (h : cache t = some c) :
    validateTickerDynamically env cache now t exch =
      if now - c.timestamp < CACHE_DURATION then
        ((⟨c.valid, c.price, some "cache".data⟩ : DynResult), cache,
         ([] : List Provider))
      else dynamicCore env cache now t exch := by
  unfold validateTickerDynamically
  rw [h]

theorem validateTickerDynamically_writeLocal (env : Env) (cache : Cache)
    (now : Nat) (t : Str) (exch : Option Str) (k : Str) (hk : k ≠ t) :
    ((validateTickerDynamically env cache now t exch).2.1) k = cache k := by
  cases hct : cache t with
  | none =>
    rw [vtd_cacheMissEq env cache now t exch hct]
    exact dynamicCore_writeLocal env cache now t exch k hk
  | some c =>
    rw [vtd_cacheHitEq env cache now t exch c hct]
    by_cases httl : now - c.timestamp < CACHE_DURATION
    · rw [if_pos httl]
    · rw [if_neg httl]
      exact dynamicCore_writeLocal env cache now t exch k hk

theorem indianTail3_cacheIndep (env : Env) (cache cache2 : Cache)
    (now : Nat) (t e : Str) :
    (indianTail3 env cache now t e).1 = (indianTail3 env cache2 now t e).1
    ∧ (indianTail3 env cache now t e).2.2 =
      (indianTail3 env cache2 now t e).2.2 := by
  unfold indianTail3
  cases (fetchFromNSEAPI env e).1 with
  | ok r => by_cases hc : numTruthy r.price = true <;> simp [hc]
  | error a => exact ⟨rfl, rfl⟩

theorem indianTail2_cacheIndep (env : Env) (cache cache2 : Cache)
    (now : Nat) (t e : Str) :
    (indianTail2 env cache now t e).1 = (indianTail2 env cache2 now t e).1
    ∧ (indianTail2 env cache now t e).2.2 =
      (indianTail2 env cache2 now t e).2.2 := by
  unfold indianTail2
  cases (fetchFromYahooFinanceIndian env e).1 with
  | ok r =>
    by_cases hc : numTruthy r.price = true
    · simp [hc]
    · have hc' : numTruthy r.price = false := by
        revert hc
        cases numTruthy r.price <;> simp
      simp only [hc', Bool.false_eq_true, if_false]
      exact indianTail3_cacheIndep env cache cache2 now t e
  | error a => exact indianTail3_cacheIndep env cache cache2 now t e

theorem validateIndianStock_cacheIndep (env : Env) (cache cache2 : Cache)
    (now : Nat) (t : Str) (exch : Option Str) :
    (validateIndianStock env cache now t exch).1 =
      (validateIndianStock env cache2 now t exch).1
    ∧ (validateIndianStock env cache now t exch).2.2 =
      (validateIndianStock env cache2 now t exch).2.2 := by
  rcases exch with _ | e
  · exact ⟨rfl, rfl⟩
  · simp only [validateIndianStock]
    by_cases hmem : indianExchanges.contains e = true
    · rw [if_pos hmem, if_pos hmem]
      cases (fetchFromAlphaVantageIndian env e).1 with
      | ok r =>
        by_cases hc : numTruthy r.price = true
        · simp [hc]
        · have hc' : numTruthy r.price = false := by
            revert hc
            cases numTruthy r.price <;> simp
          simp only [hc', Bool.false_eq_true, if_false]
          exact indianTail2_cacheIndep env cache cache2 now t e
      | error a => exact indianTail2_cacheIndep env cache cache2 now t e
    · rw [if_neg hmem, if_neg hmem]
      exact ⟨rfl, rfl⟩

theorem dynamicCore_cacheIndep (env : Env) (cache cache2 : Cache)
    (now : Nat) (t : Str) (exch : Option Str) :
    (dynamicCore env cache now t exch).1 =
      (dynamicCore env cache2 now t exch).1
    ∧ (dynamicCore env cache now t exch).2.2 =
      (dynamicCore env cache2 now t exch).2.2 := by
  unfold dynamicCore
  cases hI : isInternationalApiSupported exch
  · simp only [Bool.not_false, if_pos]
    exact validateIndianStock_cacheIndep env cache cache2 now t exch
  · simp only [Bool.not_true, Bool.false_eq_true, if_false]
    cases validateWithAlphaVantageDemo env with
    | ok r => exact ⟨rfl, rfl⟩
    | error a =>
      cases validateWithYahooFinance env with
      | ok r => exact ⟨rfl, rfl⟩
      | error a2 =>
        cases validateWithPolygonDemo env with
        | ok r => exact ⟨rfl, rfl⟩
        | error a3 => exact ⟨rfl, rfl⟩

theorem validateTickerDynamically_readLocal (env : Env)
    (cache cache2 : Cache) (now : Nat) (t : Str) (exch : Option Str)
    (hEq : cache t = cache2 t) :
    (validateTickerDynamically env cache now t exch).1 =
      (validateTickerDynamically env cache2 now t exch).1
    ∧ (validateTickerDynamically env cache now t exch).2.2 =
      (validateTickerDynamically env cache2 now t exch).2.2 := by
  cases hct : cache2 t with
  | none =>
    rw [vtd_cacheMissEq env cache now t exch (by rw [hEq, hct]),
      vtd_cacheMissEq env cache2 now t exch hct]
    exact dynamicCore_cacheIndep env cache cache2 now t exch
  | some c =>
    rw [vtd_cacheHitEq env cache now t exch c (by rw [hEq, hct]),
      vtd_cacheHitEq env cache2 now t exch c hct]
    by_cases httl : now - c.timestamp < CACHE_DURATION
    · rw [if_pos httl, if_pos httl]
      exact ⟨rfl, rfl⟩
    · rw [if_neg httl, if_neg httl]
      exact dynamicCore_cacheIndep env cache cache2 now t exch

/-- C7 counterexample cache: state after resolving `NSE:TCS` (price 100
from Yahoo Finance India) at time 0. -/
def c7cache : Cache :=
  (GET demoCfg envYahooIndia100 emptyCache 0 "NSE:TCS".data).2.1

/-- C7 counterexample: the cache key is the bare symbol, not the
canonical form.  Resolving `NSE:TCS` stores the 100 quote under `TCS`; a
later `BSE:TCS` resolution — against providers that answer nothing —
reads that same entry, returning price 100 from source `"cache"` with
zero provider calls.  Two resolutions with different canonical forms
therefore DO read/overwrite each other's entry, refuting the claim. -/
theorem cache_shared_across_exchanges :
    (GET demoCfg envYahooIndia100 emptyCache 0 "NSE:TCS".data).1 =
      .success ⟨"NSE:TCS".data, "TCS".data, some "NSE".data, some 100,
        none, none, 0, "Yahoo Finance India".data⟩
    ∧ (GET demoCfg envAllFail c7cache 60000 "BSE:TCS".data).1 =
      .success ⟨"BSE:TCS".data, "TCS".data, some "BSE".data, some 100,
        none, none, 60000, "cache".data⟩
    ∧ (GET demoCfg envAllFail c7cache 60000 "BSE:TCS".data).2.2 = []
    ∧ ("NSE:TCS".data : Str) ≠ "BSE:TCS".data := by
  decide

/-- C7 (amended): the quote cache holds one entry per PARSED BARE SYMBOL:
a resolution writes at most the entry keyed by its parsed symbol (every
other key is untouched), and its response and provider calls depend on
the cache only through that one entry — hence resolutions with different
symbols never interact, while resolutions sharing a symbol under
different exchange prefixes share one entry. -/
theorem cache_keyed_by_symbol_locality (cfg : Config) (env : Env)
    (cache cache2 : Cache) (now : Nat) (raw : Str) (k : Str)
    (hk : k ≠ (parseTicker raw).symbol) :
    (GET cfg env cache now raw).2.1 k = cache k
    ∧ (cache (parseTicker raw).symbol = cache2 (parseTicker raw).symbol →
      (GET cfg env cache now raw).1 = (GET cfg env cache2 now raw).1
      ∧ (GET cfg env cache now raw).2.2 =
        (GET cfg env cache2 now raw).2.2) := by
  constructor
  · unfold GET
    cases hf : isValidTickerFormat raw
    · rfl
    · cases hkey : realKeyConfigured cfg
      · simp only [Bool.not_true, Bool.false_eq_true, if_false]
        unfold dynamicOutcome
        exact validateTickerDynamically_writeLocal env cache now
          (parseTicker raw).symbol (parseTicker raw).exchange k hk
      · simp only [Bool.not_true, Bool.false_eq_true, if_false, if_pos]
        cases hd : env.direct with
        | none =>
          unfold dynamicOutcome
          exact validateTickerDynamically_writeLocal env cache now
            (parseTicker raw).symbol (parseTicker raw).exchange k hk
        | some j =>
          rcases hq : avQuoteStr j with _ | s
          · cases hem : j.errorMessage
            · cases him : j.information
              · simp only [hq, hem, him, Bool.false_eq_true, if_false]
                unfold dynamicOutcome
                exact validateTickerDynamically_writeLocal env cache now
                  (parseTicker raw).symbol (parseTicker raw).exchange k hk
              · simp [hq, hem, him]
            · simp [hq, hem]
          · simp [hq]
  · intro hEq
    have hrd := validateTickerDynamically_readLocal env cache cache2 now
      (parseTicker raw).symbol (parseTicker raw).exchange hEq
    unfold GET
    cases hf : isValidTickerFormat raw
    · exact ⟨rfl, rfl⟩
    · cases hkey : realKeyConfigured cfg
      · simp only [Bool.not_true, Bool.false_eq_true, if_false]
        unfold dynamicOutcome
        rw [hrd.1, hrd.2]
        exact ⟨rfl, rfl⟩
      · simp only [Bool.not_true, Bool.false_eq_true, if_false, if_pos]
        cases hd : env.direct with
        | none =>
          unfold dynamicOutcome
          rw [hrd.1, hrd.2]
          exact ⟨rfl, rfl⟩
        | some j =>
          rcases hq : avQuoteStr j with _ | s
          · cases hem : j.errorMessage
            · cases him : j.information
              · simp only [hq, hem, him, Bool.false_eq_true, if_false]
                unfold dynamicOutcome
                rw [hrd.1, hrd.2]
                exact ⟨rfl, rfl⟩
              · simp [hq, hem, him]
            · simp [hq, hem]
          · simp [hq]

/-- A second cache differing from `w1cache` only away from `AAPL`. -/
def w2cache : Cache := cacheSet w1cache "MSFT".data ⟨false, none, 5⟩

/-- Witness for C7: a resolution of AAPL leaves the unrelated key `X`
untouched, and two caches agreeing at `AAPL` produce the same response. -/
theorem cache_keyed_by_symbol_locality_witness :
    (GET demoCfg envAllFail w1cache 1000 "AAPL".data).2.1 "X".data =
      w1cache "X".data
    ∧ (GET demoCfg envAllFail w1cache 1000 "AAPL".data).1 =
      (GET demoCfg envAllFail w2cache 1000 "AAPL".data).1 := by
  have h := cache_keyed_by_symbol_locality demoCfg envAllFail w1cache
    w2cache 1000 "AAPL".data "X".data (by decide)
  exact ⟨h.1, (h.2 (by decide)).1⟩

end StockApi
